import Mathlib

/-!
Verification of the Trisonica data-logger acquisition engine
(src/datalogger_pi.py; the line parser and the statistics routine are
shared, verbatim for the parser, with src/datalogger_simple.py).

Shallow embedding conventions:
 - Python strings are Lean `String`s backed by `List Char`;
 - Python floats are exact rationals `ℚ` (the stored `std_dev` field,
   `variance ** 0.5`, is embedded through its square `std_dev_sq`);
 - Python dictionaries are insertion-ordered association lists with
   unique keys (`aset` replaces in place, appends when absent — the
   semantics of `d[k] = v`);
 - file writes are recorded in an explicit log carried in the state;
 - wall-clock timestamps are opaque strings threaded as parameters.
-/

namespace Trisonica

/-- Python whitespace, the character class used by str.strip() and
str.split() with no arguments. -/
def isPySpace (c : Char) : Bool :=
  c = ' ' || c = '\t' || c = '\n' || c = '\r' || c = '\x0b' || c = '\x0c'

/-- Python str.strip(): remove leading and trailing whitespace. -/
def stripChars (cs : List Char) : List Char :=
  ((cs.dropWhile isPySpace).reverse.dropWhile isPySpace).reverse

/-- str.strip() on a whole string. -/
def pyStrip (s : String) : String := String.mk (stripChars s.data)

/-- Python str.split(sep) for a one-character separator: keeps empty
segments, so the result is always non-empty. -/
def splitChar (sep : Char) : List Char → List (List Char)
  | [] => [[]]
  | c :: cs =>
    if c = sep then [] :: splitChar sep cs
    else
      match splitChar sep cs with
      | t :: ts => (c :: t) :: ts
      | [] => [[c]]

/-- Python s.split(' ', 1): split at the first space character; `none`
exactly when the input contains no space (the code guards with
`if ' ' in pair`, and with a space present split(' ', 1) always yields
two parts, so the guard and the split collapse into this one match). -/
def splitFirstSpace : List Char → Option (List Char × List Char)
  | [] => none
  | c :: cs =>
    if c = ' ' then some ([], cs)
    else
      match splitFirstSpace cs with
      | some kv => some (c :: kv.1, kv.2)
      | none => none

/-- Worker for str.split() with no argument: split on runs of
whitespace, producing no empty tokens; `acc` holds the reversed
characters of the token being read. -/
def splitWsAux : List Char → List Char → List String
  | [], acc => if acc.isEmpty then [] else [String.mk acc.reverse]
  | c :: cs, acc =>
    if isPySpace c then
      if acc.isEmpty then splitWsAux cs []
      else String.mk acc.reverse :: splitWsAux cs []
    else splitWsAux cs (c :: acc)

/-- Python str.split() with no argument. -/
def splitWs (cs : List Char) : List String := splitWsAux cs []

/-- Python dict assignment d[k] = v on an insertion-ordered association
list: an existing key keeps its position and gets the new value, a new
key is appended at the end. -/
def aset {α : Type} (m : List (String × α)) (k : String) (v : α) :
    List (String × α) :=
  match m with
  | [] => [(k, v)]
  | p :: rest => if p.1 = k then (p.1, v) :: rest else p :: aset rest k v

/-- Python dict lookup d.get(k). -/
def alookup {α : Type} (m : List (String × α)) (k : String) : Option α :=
  match m with
  | [] => none
  | p :: rest => if p.1 = k then some p.2 else alookup rest k

/-- The Python idiom "if k not in d: d[k] = default". -/
def ensureKey {α : Type} (m : List (String × α)) (k : String) (d : α) :
    List (String × α) :=
  if (alookup m k).isNone then aset m k d else m

/-- Bool test that the first list is a leading segment of the second. -/
def charsPrefixOf : List Char → List Char → Bool
  | [], _ => true
  | _ :: _, [] => false
  | c :: cs, d :: ds => c = d && charsPrefixOf cs ds

/-- Python s.startswith(pre). -/
def pyStartsWith (s pre : String) : Bool := charsPrefixOf pre.data s.data

/-- One comma-mode segment of parse_data_line: `pair = pair.strip()`,
then if it contains a space, `key, value = pair.split(' ', 1)` and both
sides are stripped; a segment without a space yields nothing. -/
def segKV (seg : List Char) : Option (String × String) :=
  match splitFirstSpace (stripChars seg) with
  | some kv => some (String.mk (stripChars kv.1), String.mk (stripChars kv.2))
  | none => none

/-- Whitespace-mode pairing of parse_data_line:
`for i in range(0, len(parts)-1, 2): parsed[parts[i]] = parts[i+1]` —
tokens are paired positionally, a trailing unpaired token is dropped. -/
def pairUp : List String → List (String × String)
  | k :: v :: rest => (k, v) :: pairUp rest
  | _ => []

/-- Folding a pair list into a fresh Python dict, in order. -/
def dictFold (ps : List (String × String)) : List (String × String) :=
  ps.foldl (fun m kv => aset m kv.1 kv.2) []

/-- parse_data_line (datalogger_pi.py lines 261-281, identical in
datalogger_simple.py lines 283-303): comma-delimited mode when the line
contains a comma, otherwise whitespace-delimited positional pairing.
The try/except wrapper is dead: every operation here is total. -/
def parse_data_line (line : String) : List (String × String) :=
  let cs := line.data
  if ',' ∈ cs then
    (splitChar ',' (stripChars cs)).foldl
      (fun m seg =>
        match segKV seg with
        | some kv => aset m kv.1 kv.2
        | none => m) []
  else
    (pairUp (splitWs (stripChars cs))).foldl (fun m kv => aset m kv.1 kv.2) []

/-- Keys in order of first appearance (the key order a Python dict ends
up with after inserting a key sequence). -/
def dedupFirst (ks : List String) : List String :=
  ks.foldl (fun acc k => if k ∈ acc then acc else acc ++ [k]) []

/-- The character content of ','.join(row). -/
def joinComma : List String → List Char
  | [] => []
  | [s] => s.data
  | s :: rest => s.data ++ ',' :: joinComma rest

/-- Numeric value of a digit string (most significant first). -/
def digitsToNat (cs : List Char) : Nat :=
  cs.foldl (fun n c => n * 10 + (c.toNat - '0'.toNat)) 0

def allDigits (cs : List Char) : Bool := cs.all (fun c => c.isDigit)

/-- Models Python float() on optionally-signed plain decimal literals
("180", "3.2", "-99.70", "+1.", ".5"), the only numeric shapes the
sensor stream and the claims use; other float() syntaxes (exponents,
inf/nan, underscores) do not occur in any input considered here and are
mapped to none, like non-numeric text (ValueError). float() also strips
surrounding whitespace, modelled by the leading strip. -/
def pyFloatDec? (s : String) : Option ℚ :=
  let cs := stripChars s.data
  let sc : Bool × List Char :=
    match cs with
    | '-' :: rest => (true, rest)
    | '+' :: rest => (false, rest)
    | _ => (false, cs)
  let core : Option ℚ :=
    match splitChar '.' sc.2 with
    | [ip] => if !ip.isEmpty && allDigits ip then some (digitsToNat ip) else none
    | [ip, fp] =>
      if (!ip.isEmpty || !fp.isEmpty) && allDigits ip && allDigits fp then
        some ((digitsToNat ip : ℚ) + (digitsToNat fp : ℚ) / (10 : ℚ) ^ fp.length)
      else none
    | _ => none
  core.map (fun q => if sc.1 then -q else q)

/-- The per-parameter Statistics dataclass (datalogger_pi.py lines
42-50).  values is a deque with maxlen 100, embedded as a list of at
most 100 elements; std_dev, stored by the code as variance ** 0.5, is
embedded through its square std_dev_sq (exact over ℚ, whereas a square
root is not), so std_dev = sqrt std_dev_sq throughout. -/
structure Statistics where
  min_val : ℚ := 0
  max_val : ℚ := 0
  mean_val : ℚ := 0
  current_val : ℚ := 0
  std_dev_sq : ℚ := 0
  count : Nat := 0
  values : List ℚ := []

/-- deque(maxlen=cap).append(v): append on the right, evict the oldest
element on the left once past capacity. -/
def windowAppend (cap : Nat) (xs : List ℚ) (v : ℚ) : List ℚ :=
  let ys := xs ++ [v]
  if cap < ys.length then ys.drop (ys.length - cap) else ys

/-- Body of calculate_statistics (datalogger_pi.py lines 306-326) for
one parameter's record: append to the window, then either initialise
(count == 1) or recompute running extrema, windowed mean, and windowed
population variance (the code guards the variance recomputation with
len(values) > 1). -/
def updStats (s : Statistics) (value : ℚ) : Statistics :=
  let s := { s with current_val := value, count := s.count + 1,
                    values := windowAppend 100 s.values value }
  if s.count = 1 then
    { s with min_val := value, max_val := value, mean_val := value,
             std_dev_sq := 0 }
  else
    let m := s.values.sum / (s.values.length : ℚ)
    let s := { s with min_val := min s.min_val value,
                      max_val := max s.max_val value, mean_val := m }
    if 1 < s.values.length then
      { s with
        std_dev_sq := (s.values.map (fun x => (x - m) ^ 2)).sum /
          (s.values.length : ℚ) }
    else s

/-- calculate_statistics (datalogger_pi.py lines 306-326): create the
entry lazily, then update it in place. -/
def calculate_statistics (stats : List (String × Statistics)) (key : String)
    (value : ℚ) : List (String × Statistics) :=
  aset stats key (updStats ((alookup stats key).getD {}) value)

/-- Sensor health statuses (the status strings of datalogger_pi.py). -/
inductive HealthStatus
  | unknown
  | good
  | error
  | malfunction
  | offline
  deriving DecidableEq

/-- One sensor_health entry: status, engine-wide error rate percentage,
and the timestamp of the last good reading. -/
structure SensorHealth where
  status : HealthStatus := .unknown
  error_rate : ℚ := 0
  last_good_reading : Option String := none

/-- One parameter_errors entry. -/
structure ParamErrors where
  error_count : Nat := 0
  total_count : Nat := 0

/-- The sensor_health map is pre-seeded with nine known parameter codes
in Unknown state (datalogger_pi.py lines 82-87). -/
def initSensorHealth : List (String × SensorHealth) :=
  [("S", {}), ("S2", {}), ("D", {}), ("T", {}), ("H", {}), ("P", {}),
   ("U", {}), ("V", {}), ("W", {})]

/-- The data_quality dictionary (datalogger_pi.py lines 71-79).
last_error_time holds an opaque timestamp string; the wall-clock
last_connection_time field is omitted (never read by any claim, set
once at startup). -/
structure DataQuality where
  total_readings : Nat := 0
  error_count : Nat := 0
  last_error_time : Option String := none
  sensor_health : List (String × SensorHealth) := initSensorHealth
  connection_drops : Nat := 0
  parameter_errors : List (String × ParamErrors) := []

/-- update_sensor_health (datalogger_pi.py lines 375-402): ensure the
entry exists, classify (error sentinel / T-prefixed overflow
malfunction / P pressure-offline / good), bump the engine-wide error
counter on error, and recompute the engine-wide error-rate percentage
when any readings exist. -/
def update_sensor_health (dq : DataQuality) (parameter : String) (value : ℚ)
    (is_error : Bool) (now : String) : DataQuality :=
  let health := ensureKey dq.sensor_health parameter {}
  let sensor := (alookup health parameter).getD {}
  let dq := { dq with sensor_health := health }
  let step : DataQuality × SensorHealth :=
    if is_error then
      ({ dq with error_count := dq.error_count + 1,
                 last_error_time := some now },
       { sensor with status := .error })
    else
      (dq,
       { sensor with
         last_good_reading := some now,
         status :=
           if pyStartsWith parameter "T" ∧ 100000 < value then .malfunction
           else if parameter = "P" ∧ value = -(997 / 10) then .offline
           else .good })
  let dq := step.1
  let sensor := step.2
  let sensor :=
    if 0 < dq.total_readings then
      { sensor with
        error_rate := (dq.error_count : ℚ) / (dq.total_readings : ℚ) * 100 }
    else sensor
  { dq with sensor_health := aset dq.sensor_health parameter sensor }

/-- One line written to the record file: either the header row or a
data row (both are rendered as the comma-join of their fields). -/
inductive CsvEntry
  | header (cols : List String)
  | row (vals : List String)
  deriving DecidableEq

/-- The mutable state of TrisonicaDataLoggerPi that the engine claims
concern: CSV schema and record-file content, quality counters, and the
per-parameter statistics.  The bounded data_points history ring and the
wall-clock timing fields are write-only for every claim and omitted. -/
structure EngineState where
  csv_columns : List String := ["timestamp"]
  csv_headers_written : Bool := false
  csv_log : List CsvEntry := []
  data_quality : DataQuality := {}
  stats : List (String × Statistics) := []

/-- The freshly-initialised engine state (datalogger_pi.py lines
62-87). -/
def initState : EngineState := {}

/-- The column-growing loop of update_csv_columns (datalogger_pi.py
lines 285-287): append each not-yet-known key, in the field map's
insertion order. -/
def observe_csv_columns (cols : List String) (parsed : List (String × String)) :
    List String :=
  parsed.foldl (fun cs kv => if kv.1 ∈ cs then cs else cs ++ [kv.1]) cols

/-- The column sequence after observing a whole run of field maps,
starting from the pre-seeded ["timestamp"]. -/
def observeAll (fss : List (List (String × String))) : List String :=
  fss.foldl observe_csv_columns ["timestamp"]

/-- update_csv_columns (datalogger_pi.py lines 283-291), with the
header write modelled fallibly: writeOk false means the file write
raises, in which case csv_headers_written is NOT set (the assignment
follows the write).  Returns the state and whether control continues
normally. -/
def update_csv_columns_f (st : EngineState) (parsed : List (String × String))
    (writeOk : Bool) : EngineState × Bool :=
  let st := { st with csv_columns := observe_csv_columns st.csv_columns parsed }
  if st.csv_headers_written then (st, true)
  else if writeOk then
    ({ st with csv_log := st.csv_log ++ [CsvEntry.header st.csv_columns],
               csv_headers_written := true }, true)
  else (st, false)

/-- The row assembled by write_csv_row (datalogger_pi.py lines
295-301): one value per currently-known column, the timestamp for the
timestamp column, parsed_data.get(column, '') otherwise. -/
def row_values (cols : List String) (now : String)
    (parsed : List (String × String)) : List String :=
  cols.map (fun c => if c = "timestamp" then now else (alookup parsed c).getD "")

/-- write_csv_row (datalogger_pi.py lines 293-304), fallible write. -/
def write_csv_row_f (st : EngineState) (now : String)
    (parsed : List (String × String)) (writeOk : Bool) : EngineState × Bool :=
  if writeOk then
    ({ st with csv_log :=
        st.csv_log ++ [CsvEntry.row (row_values st.csv_columns now parsed)] },
     true)
  else (st, false)

/-- Body of the per-field loop of read_serial_data (datalogger_pi.py
lines 346-367), given the result of float(value_str): on conversion
failure, update_sensor_health(key, 0, True); on success, ensure and
bump the per-parameter total counter, classify with the sentinel test
value <= -99.0, then either bump the per-parameter error counter or
feed the value to calculate_statistics. -/
def processReading (st : EngineState) (key : String) (conv : Option ℚ)
    (now : String) : EngineState :=
  match conv with
  | none => { st with data_quality := update_sensor_health st.data_quality key 0 true now }
  | some value =>
    let dq := st.data_quality
    let dq := { dq with parameter_errors := ensureKey dq.parameter_errors key {} }
    let pe := (alookup dq.parameter_errors key).getD {}
    let pe1 : ParamErrors := { pe with total_count := pe.total_count + 1 }
    let dq := { dq with parameter_errors := aset dq.parameter_errors key pe1 }
    let is_error : Bool := decide (value ≤ -99)
    let dq := update_sensor_health dq key value is_error now
    if is_error then
      let pe2 := (alookup dq.parameter_errors key).getD {}
      let pe3 : ParamErrors := { pe2 with error_count := pe2.error_count + 1 }
      let dq := { dq with parameter_errors := aset dq.parameter_errors key pe3 }
      { st with data_quality := dq }
    else
      { st with data_quality := dq,
                stats := calculate_statistics st.stats key value }

/-- read_serial_data (datalogger_pi.py lines 328-373) for one decoded
line, with record-file writes fallible (writeOk): a blank line returns
None before any mutation; a write failure raises, is caught by the
blanket except at lines 371-373, and returns None with the mutations
made so far kept.  The Bool is whether a DataPoint was returned. -/
def read_serial_data_f (st : EngineState) (line now : String)
    (writeOk : Bool) : EngineState × Bool :=
  let stripped := pyStrip line
  if stripped = "" then (st, false)
  else
    let parsed := parse_data_line stripped
    let r1 := update_csv_columns_f st parsed writeOk
    if r1.2 = false then (r1.1, false)
    else
      let r2 := write_csv_row_f r1.1 now parsed writeOk
      if r2.2 = false then (r2.1, false)
      else
        let st2 := { r2.1 with data_quality :=
          { r2.1.data_quality with
            total_readings := r2.1.data_quality.total_readings + 1 } }
        (parsed.foldl (fun s kv => processReading s kv.1 (pyFloatDec? kv.2) now) st2,
         true)

/-- read_serial_data with the record file healthy (every write
succeeds), the normal operating mode. -/
def read_serial_data (st : EngineState) (line now : String) :
    EngineState × Bool :=
  read_serial_data_f st line now true

/-- Processing a whole sequence of received (line, timestamp) pairs. -/
def processAll (st : EngineState) (inputs : List (String × String)) :
    EngineState :=
  inputs.foldl (fun s p => (read_serial_data s p.1 p.2).1) st

/-- Processing a sequence of (line, timestamp, writeOk) triples. -/
def runLines (st : EngineState) (inputs : List (String × String × Bool)) :
    EngineState :=
  inputs.foldl (fun s i => (read_serial_data_f s i.1 i.2.1 i.2.2).1) st

/-- Status of a parameter's sensor-health entry. -/
def healthStatusOf (st : EngineState) (key : String) : HealthStatus :=
  ((alookup st.data_quality.sensor_health key).getD {}).status

/-- Per-parameter error counter. -/
def paramErrorCount (st : EngineState) (key : String) : Nat :=
  ((alookup st.data_quality.parameter_errors key).getD {}).error_count

/-- Per-parameter total counter. -/
def paramTotalCount (st : EngineState) (key : String) : Nat :=
  ((alookup st.data_quality.parameter_errors key).getD {}).total_count

/-- Current bounded window of a parameter in a statistics map. -/
def statValues (stats : List (String × Statistics)) (key : String) : List ℚ :=
  ((alookup stats key).getD {}).values

def isHeaderEntry : CsvEntry → Bool
  | .header _ => true
  | .row _ => false

def isRowEntry : CsvEntry → Bool
  | .header _ => false
  | .row _ => true

/-- Number of header rows written to the record file. -/
def headerCount (log : List CsvEntry) : Nat :=
  (log.filter isHeaderEntry).length

/-- Feeding a list of already-converted values for one parameter
through calculate_statistics, in order. -/
def feedValues (stats : List (String × Statistics)) (key : String)
    (vals : List ℚ) : List (String × Statistics) :=
  vals.foldl (fun m v => calculate_statistics m key v) stats

/-- Folding a value history into a single Statistics record. -/
def statsFold (vals : List ℚ) : Statistics :=
  vals.foldl updStats {}

/-- The most recent n elements of a list. -/
def lastN (n : Nat) (l : List ℚ) : List ℚ :=
  l.drop (l.length - n)

/-- Phases of the device-session loop in run (datalogger_pi.py lines
449-514): searching for a device, connected and reading, stopped. -/
inductive SessPhase
  | searching
  | connected
  | stopped
  deriving DecidableEq

/-- The run-loop state: current phase, the running flag (cleared only
by the shutdown signal handler), whether the serial handle is open,
the engine state, and how many times the output files were opened
(setup_logging runs once, in the constructor). -/
structure RunState where
  phase : SessPhase
  running : Bool
  port_open : Bool
  engine : EngineState
  files_opened : Nat

/-- Events one iteration of the connected read loop can see. -/
inductive LinkEvent
  | readOk (line : String)
  | readRaise
  | serialEscape

/-- Lines 371-373 of datalogger_pi.py: when readline (or anything else
inside read_serial_data's try block) raises, the blanket
"except Exception" logs a warning and returns None; the state is
unchanged and no exception propagates to the run loop. -/
def read_serial_data_raised (st : EngineState) : EngineState × Bool :=
  (st, false)

/-- One iteration of the inner data-logging loop of run (datalogger_pi.py
lines 479-507) with wait_for_device enabled.  If the loop condition
fails (not running, or the handle reports closed) the inner loop exits,
the port is closed and the outer loop re-enters the device search.
readOk processes a line via read_serial_data.  readRaise is a readline
failure: it is absorbed inside read_serial_data (lines 371-373), so the
loop simply continues in the same phase.  serialEscape is a
SerialException escaping read_serial_data and reaching the handler at
lines 497-503, which breaks to the device search. -/
def innerIter (r : RunState) (ev : LinkEvent) (now : String) : RunState :=
  if ¬(r.running && r.port_open) then
    { r with phase := .searching, port_open := false }
  else
    match ev with
    | .readOk line => { r with engine := (read_serial_data r.engine line now).1 }
    | .readRaise => { r with engine := (read_serial_data_raised r.engine).1 }
    | .serialEscape => { r with phase := .searching, port_open := false }

/-- A session that has just connected: files were opened once at
construction time. -/
def connectedInit : RunState :=
  { phase := .connected, running := true, port_open := true,
    engine := initState, files_opened := 1 }

/-- The closed-form specification of one parameter's statistics record
after the value history l (nonempty) has been fed in order: count is
the number of values ever fed, the stored window is the most recent 100
of them, min/max are the extrema over ALL values ever fed, mean is the
arithmetic mean over the window, and std_dev_sq (the square of the
stored standard deviation) is the population variance — divide by the
window length, not length - 1 — over the window. -/
def StatsInv (l : List ℚ) (s : Statistics) : Prop :=
  s.count = l.length ∧
  s.values = lastN 100 l ∧
  s.min_val ∈ l ∧ (∀ x ∈ l, s.min_val ≤ x) ∧
  s.max_val ∈ l ∧ (∀ x ∈ l, x ≤ s.max_val) ∧
  s.mean_val = (lastN 100 l).sum / ((lastN 100 l).length : ℚ) ∧
  s.std_dev_sq =
    ((lastN 100 l).map (fun x => (x - s.mean_val) ^ 2)).sum /
      ((lastN 100 l).length : ℚ)

/-! Association-list lemmas: aset is Python dict assignment. -/

theorem alookup_aset_self {α : Type} (m : List (String × α)) (k : String)
    (v : α) : alookup (aset m k v) k = some v := by
  induction m with
  | nil => simp [aset, alookup]
  | cons p rest ih =>
    by_cases h : p.1 = k
    · simp [aset, alookup, h]
    · simp [aset, alookup, h, ih]

theorem alookup_aset_ne {α : Type} (m : List (String × α)) {k k2 : String}
    (v : α) (h : k2 ≠ k) : alookup (aset m k v) k2 = alookup m k2 := by
  have h2 : ¬k = k2 := fun e => h e.symm
  induction m with
  | nil => simp [aset, alookup, h2]
  | cons p rest ih =>
    by_cases hp : p.1 = k
    · simp [aset, alookup, hp, h2]
    · simp [aset, alookup, hp, ih]

theorem mem_aset {α : Type} {x : String × α} {m : List (String × α)}
    {k : String} {v : α} (h : x ∈ aset m k v) : x ∈ m ∨ x = (k, v) := by
  induction m with
  | nil => simpa [aset] using h
  | cons p rest ih =>
    rw [aset] at h
    by_cases hp : p.1 = k
    · rw [if_pos hp] at h
      rcases List.mem_cons.mp h with h1 | h1
      · right; rw [h1, hp]
      · exact Or.inl (List.mem_cons_of_mem _ h1)
    · rw [if_neg hp] at h
      rcases List.mem_cons.mp h with h1 | h1
      · left; rw [h1]; exact List.mem_cons_self _ _
      · rcases ih h1 with h2 | h2
        · exact Or.inl (List.mem_cons_of_mem _ h2)
        · exact Or.inr h2

theorem keys_aset {α : Type} (m : List (String × α)) (k : String) (v : α) :
    (aset m k v).map Prod.fst =
      if k ∈ m.map Prod.fst then m.map Prod.fst
      else m.map Prod.fst ++ [k] := by
  induction m with
  | nil => simp [aset]
  | cons p rest ih =>
    by_cases hp : p.1 = k
    · simp [aset, hp]
    · have : ¬k = p.1 := fun h => hp h.symm
      simp only [aset, hp, if_neg, not_false_iff, List.map_cons,
        List.mem_cons, this, false_or, ih]
      by_cases hk : k ∈ rest.map Prod.fst <;> simp [hk]

theorem alookup_mem {α : Type} {m : List (String × α)} {k : String} {v : α}
    (h : alookup m k = some v) : (k, v) ∈ m := by
  induction m with
  | nil => simp [alookup] at h
  | cons p rest ih =>
    by_cases hp : p.1 = k
    · rw [alookup] at h
      simp only [hp, if_pos] at h
      obtain ⟨a, b⟩ := p
      simp_all
    · rw [alookup] at h
      simp only [hp, if_neg, not_false_iff] at h
      exact List.mem_cons_of_mem _ (ih h)

theorem alookup_foldl_aset {α : Type} (ps : List (String × α))
    (m : List (String × α)) (k : String) :
    alookup (ps.foldl (fun m kv => aset m kv.1 kv.2) m) k =
      match ps.reverse.find? (fun p => p.1 == k) with
      | some p => some p.2
      | none => alookup m k := by
  induction ps generalizing m with
  | nil => simp
  | cons kv rest ih =>
    simp only [List.foldl_cons, List.reverse_cons, List.find?_append]
    rw [ih]
    cases hf : rest.reverse.find? (fun p => p.1 == k) with
    | some q => simp
    | none =>
      by_cases hk : kv.1 = k
      · subst hk
        simp [List.find?, alookup_aset_self]
      · have hb : (kv.1 == k) = false := beq_eq_false_iff_ne.mpr hk
        simp [List.find?, hb, alookup_aset_ne _ _ (fun h => hk h.symm)]

theorem keys_foldl_aset {α : Type} (ps : List (String × α))
    (m : List (String × α)) :
    (ps.foldl (fun m kv => aset m kv.1 kv.2) m).map Prod.fst =
      ps.foldl (fun acc kv => if kv.1 ∈ acc then acc else acc ++ [kv.1])
        (m.map Prod.fst) := by
  induction ps generalizing m with
  | nil => rfl
  | cons kv rest ih => simp [ih, keys_aset]

theorem mem_foldl_aset {α : Type} {x : String × α} (ps : List (String × α)) :
    ∀ m, x ∈ ps.foldl (fun m kv => aset m kv.1 kv.2) m → x ∈ m ∨ x ∈ ps := by
  induction ps with
  | nil => exact fun m h => Or.inl h
  | cons kv rest ih =>
    intro m h
    rw [List.foldl_cons] at h
    rcases ih _ h with h2 | h2
    · rcases mem_aset h2 with h3 | h3
      · exact Or.inl h3
      · right
        rw [h3]
        exact List.mem_cons_self _ _
    · exact Or.inr (List.mem_cons_of_mem _ h2)

/-! Lemmas about the Python string primitives. -/

theorem mem_stripChars {x : Char} {l : List Char} (h : x ∈ stripChars l) :
    x ∈ l := by
  unfold stripChars at h
  rw [List.mem_reverse] at h
  have h2 := (List.dropWhile_suffix (l := (l.dropWhile isPySpace).reverse)
    isPySpace).sublist.subset h
  rw [List.mem_reverse] at h2
  exact (List.dropWhile_suffix isPySpace).sublist.subset h2

theorem splitChar_ne_nil (sep : Char) (cs : List Char) :
    splitChar sep cs ≠ [] := by
  cases cs with
  | nil => simp [splitChar]
  | cons c cs =>
    rw [splitChar]
    split
    · simp
    · split <;> simp

theorem mem_splitChar {sep : Char} :
    ∀ {cs seg : List Char}, seg ∈ splitChar sep cs → sep ∉ seg := by
  intro cs
  induction cs with
  | nil =>
    intro seg h
    simp [splitChar] at h
    simp [h]
  | cons c cs ih =>
    intro seg h
    rw [splitChar] at h
    by_cases hc : c = sep
    · rw [if_pos hc] at h
      rcases List.mem_cons.mp h with h1 | h1
      · simp [h1]
      · exact ih h1
    · rw [if_neg hc] at h
      cases hr : splitChar sep cs with
      | nil => exact absurd hr (splitChar_ne_nil sep cs)
      | cons t ts =>
        rw [hr] at h
        rcases List.mem_cons.mp h with h1 | h1
        · subst h1
          intro hmem
          rcases List.mem_cons.mp hmem with h2 | h2
          · exact hc h2.symm
          · exact ih (hr ▸ List.mem_cons_self t ts) h2
        · exact ih (hr ▸ List.mem_cons_of_mem t h1)

theorem splitChar_no_sep {sep : Char} :
    ∀ {cs : List Char}, sep ∉ cs → splitChar sep cs = [cs] := by
  intro cs
  induction cs with
  | nil => intro _; rfl
  | cons c cs ih =>
    intro h
    have hc : ¬c = sep := fun e => h (e ▸ List.mem_cons_self c cs)
    have hcs : sep ∉ cs := fun e => h (List.mem_cons_of_mem c e)
    rw [splitChar, if_neg hc, ih hcs]

theorem splitChar_sep_append {sep : Char} (ys : List Char) :
    ∀ {xs : List Char}, sep ∉ xs →
      splitChar sep (xs ++ sep :: ys) = xs :: splitChar sep ys := by
  intro xs
  induction xs with
  | nil => intro _; simp [splitChar]
  | cons c cs ih =>
    intro h
    have hc : ¬c = sep := fun e => h (e ▸ List.mem_cons_self c cs)
    have hcs : sep ∉ cs := fun e => h (List.mem_cons_of_mem c e)
    rw [List.cons_append, splitChar, if_neg hc, ih hcs]

theorem splitFirstSpace_none_iff :
    ∀ {cs : List Char}, splitFirstSpace cs = none ↔ ' ' ∉ cs := by
  intro cs
  induction cs with
  | nil => simp [splitFirstSpace]
  | cons c cs ih =>
    rw [splitFirstSpace]
    by_cases hc : c = ' '
    · simp [hc]
    · have hc2 : ¬(' ' = c) := fun e => hc e.symm
      cases hs : splitFirstSpace cs with
      | some kv =>
        have hmem : ' ' ∈ cs := by
          by_contra hmem
          rw [ih.mpr hmem] at hs
          exact Option.noConfusion hs
        simp [hc, hmem, hc2]
      | none =>
        have hni := ih.mp hs
        simp [hc, hni, hc2]

theorem splitFirstSpace_subset :
    ∀ {cs k v : List Char}, splitFirstSpace cs = some (k, v) →
      (∀ x ∈ k, x ∈ cs) ∧ (∀ x ∈ v, x ∈ cs) := by
  intro cs
  induction cs with
  | nil => intro k v h; exact absurd h (by simp [splitFirstSpace])
  | cons c cs ih =>
    intro k v h
    rw [splitFirstSpace] at h
    by_cases hc : c = ' '
    · rw [if_pos hc] at h
      simp only [Option.some.injEq, Prod.mk.injEq] at h
      obtain ⟨hk, hv⟩ := h
      constructor
      · intro x hx; rw [← hk] at hx; simp at hx
      · intro x hx
        rw [← hv] at hx
        exact List.mem_cons_of_mem c hx
    · rw [if_neg hc] at h
      cases hs : splitFirstSpace cs with
      | none => rw [hs] at h; exact Option.noConfusion h
      | some kv =>
        obtain ⟨k2, v2⟩ := kv
        rw [hs] at h
        simp only [Option.some.injEq, Prod.mk.injEq] at h
        obtain ⟨hk, hv⟩ := h
        obtain ⟨ih1, ih2⟩ := ih hs
        constructor
        · intro x hx
          rw [← hk] at hx
          rcases List.mem_cons.mp hx with h1 | h1
          · rw [h1]; exact List.mem_cons_self c cs
          · exact List.mem_cons_of_mem c (ih1 x h1)
        · intro x hx
          rw [← hv] at hx
          exact List.mem_cons_of_mem c (ih2 x hx)

theorem mem_splitWsAux {s : String} :
    ∀ {cs acc : List Char}, s ∈ splitWsAux cs acc →
      ∀ x ∈ s.data, x ∈ cs ∨ x ∈ acc := by
  intro cs
  induction cs with
  | nil =>
    intro acc h x hx
    rw [splitWsAux] at h
    split at h
    · simp at h
    · rcases List.mem_singleton.mp h with h1
      rw [h1] at hx
      simp at hx
      exact Or.inr hx
  | cons c cs ih =>
    intro acc h x hx
    rw [splitWsAux] at h
    by_cases hc : isPySpace c
    · rw [if_pos hc] at h
      split at h
      · rcases ih h x hx with h1 | h1
        · exact Or.inl (List.mem_cons_of_mem c h1)
        · simp at h1
      · rcases List.mem_cons.mp h with h1 | h1
        · rw [h1] at hx
          simp at hx
          exact Or.inr hx
        · rcases ih h1 x hx with h2 | h2
          · exact Or.inl (List.mem_cons_of_mem c h2)
          · simp at h2
    · rw [if_neg hc] at h
      rcases ih h x hx with h1 | h1
      · exact Or.inl (List.mem_cons_of_mem c h1)
      · rcases List.mem_cons.mp h1 with h2 | h2
        · exact Or.inl (h2 ▸ List.mem_cons_self c cs)
        · exact Or.inr h2

theorem pairUp_mem :
    ∀ (ts : List String) (k v : String), (k, v) ∈ pairUp ts →
      k ∈ ts ∧ v ∈ ts
  | [], k, v, h => by simp [pairUp] at h
  | [a], k, v, h => by simp [pairUp] at h
  | a :: b :: rest, k, v, h => by
    rcases List.mem_cons.mp h with h1 | h1
    · simp only [Prod.mk.injEq] at h1
      obtain ⟨hk, hv⟩ := h1
      constructor
      · rw [hk]; exact List.mem_cons_self a (b :: rest)
      · rw [hv]
        exact List.mem_cons_of_mem a (List.mem_cons_self b rest)
    · obtain ⟨hk, hv⟩ := pairUp_mem rest k v h1
      exact ⟨List.mem_cons_of_mem a (List.mem_cons_of_mem b hk),
             List.mem_cons_of_mem a (List.mem_cons_of_mem b hv)⟩

theorem pairUp_even_snoc (t : String) :
    ∀ (ts : List String), ts.length % 2 = 0 → pairUp (ts ++ [t]) = pairUp ts
  | [], _ => rfl
  | [a], h => by simp at h
  | a :: b :: rest, h => by
    have h2 : rest.length % 2 = 0 := by
      have h3 : (a :: b :: rest).length = rest.length + 2 := by simp
      omega
    rw [List.cons_append, List.cons_append,
        show pairUp (a :: b :: (rest ++ [t])) = (a, b) :: pairUp (rest ++ [t])
          from rfl,
        show pairUp (a :: b :: rest) = (a, b) :: pairUp rest from rfl,
        pairUp_even_snoc t rest h2]

theorem pairUp_length :
    ∀ (ts : List String), (pairUp ts).length = ts.length / 2
  | [] => rfl
  | [a] => by norm_num [pairUp]
  | a :: b :: rest => by
    rw [show pairUp (a :: b :: rest) = (a, b) :: pairUp rest from rfl]
    simp only [List.length_cons]
    rw [pairUp_length rest]
    omega

theorem splitChar_joinComma :
    ∀ (row : List String), row ≠ [] → (∀ s ∈ row, ',' ∉ s.data) →
      splitChar ',' (joinComma row) = row.map String.data
  | [], h, _ => absurd rfl h
  | [s], _, hs => by
    rw [joinComma, splitChar_no_sep (hs s (List.mem_singleton_self s))]
    rfl
  | s :: t :: rest, _, hs => by
    rw [show joinComma (s :: t :: rest) = s.data ++ ',' :: joinComma (t :: rest)
          from rfl,
        splitChar_sep_append _ (hs s (List.mem_cons_self s (t :: rest))),
        splitChar_joinComma (t :: rest) (by simp)
          (fun u hu => hs u (List.mem_cons_of_mem s hu))]
    rfl

/-! Lemmas about the bounded statistics window. -/

theorem lastN_of_le {n : Nat} {l : List ℚ} (h : l.length ≤ n) :
    lastN n l = l := by
  unfold lastN
  rw [Nat.sub_eq_zero_of_le h, List.drop_zero]

theorem length_lastN (n : Nat) (l : List ℚ) :
    (lastN n l).length = l.length - (l.length - n) := by
  unfold lastN
  exact List.length_drop _ _

theorem windowAppend_eq_lastN (cap : Nat) (xs : List ℚ) (v : ℚ) :
    windowAppend cap xs v = lastN cap (xs ++ [v]) := by
  unfold windowAppend lastN
  by_cases h : cap < (xs ++ [v]).length
  · rw [if_pos h]
  · rw [if_neg h, Nat.sub_eq_zero_of_le (le_of_not_lt h), List.drop_zero]

theorem lastN_append_lastN (cap : Nat) (hcap : 0 < cap) (l : List ℚ)
    (v : ℚ) : lastN cap (lastN cap l ++ [v]) = lastN cap (l ++ [v]) := by
  rcases le_or_lt cap l.length with h | h
  · have hlen : (lastN cap l).length = cap := by
      rw [length_lastN]; omega
    have h1 : (lastN cap l ++ [v]).length = cap + 1 := by simp [hlen]
    rw [show lastN cap (lastN cap l ++ [v]) =
          (lastN cap l ++ [v]).drop ((lastN cap l ++ [v]).length - cap)
        from rfl, h1]
    have h2 : cap + 1 - cap = 1 := by omega
    rw [h2, List.drop_append_of_le_length (by rw [hlen]; omega),
        show lastN cap l = l.drop (l.length - cap) from rfl, List.drop_drop,
        show lastN cap (l ++ [v]) = (l ++ [v]).drop ((l ++ [v]).length - cap)
          from rfl]
    have h3 : (l ++ [v]).length = l.length + 1 := by simp
    rw [h3, List.drop_append_of_le_length (by omega)]
    have h4 : l.length - cap + 1 = l.length + 1 - cap := by omega
    rw [h4]
  · rw [lastN_of_le (le_of_lt h)]

theorem updStats_step (s : Statistics) (v : ℚ) (h : s.count ≠ 0)
    (h2 : 1 < (windowAppend 100 s.values v).length) :
    updStats s v =
      { current_val := v, count := s.count + 1,
        values := windowAppend 100 s.values v,
        min_val := min s.min_val v, max_val := max s.max_val v,
        mean_val := (windowAppend 100 s.values v).sum /
          ((windowAppend 100 s.values v).length : ℚ),
        std_dev_sq := ((windowAppend 100 s.values v).map
          (fun x => (x - (windowAppend 100 s.values v).sum /
            ((windowAppend 100 s.values v).length : ℚ)) ^ 2)).sum /
          ((windowAppend 100 s.values v).length : ℚ) } := by
  unfold updStats
  dsimp only
  rw [if_neg (by omega), if_pos h2]

theorem statsFold_snoc (l : List ℚ) (v : ℚ) :
    statsFold (l ++ [v]) = updStats (statsFold l) v := by
  unfold statsFold
  rw [List.foldl_append]
  rfl

theorem statsInv_upd {l : List ℚ} {s : Statistics} (hne : l ≠ [])
    (h : StatsInv l s) (v : ℚ) : StatsInv (l ++ [v]) (updStats s v) := by
  obtain ⟨hc, hw, hminmem, hminle, hmaxmem, hmaxle, hmean, hstd⟩ := h
  have hlpos : 0 < l.length := List.length_pos.mpr hne
  have hwin : windowAppend 100 s.values v = lastN 100 (l ++ [v]) := by
    rw [hw, windowAppend_eq_lastN, lastN_append_lastN 100 (by norm_num)]
  have hlen1 : (l ++ [v]).length = l.length + 1 := by simp
  have hwlen : 1 < (windowAppend 100 s.values v).length := by
    rw [hwin, length_lastN, hlen1]
    omega
  rw [updStats_step s v (by omega) hwlen]
  refine ⟨?_, ?_, ?_, ?_, ?_, ?_, ?_, ?_⟩
  · simp [hc]
  · exact hwin
  · rcases min_choice s.min_val v with hm | hm <;> rw [hm]
    · exact List.mem_append_left _ hminmem
    · exact List.mem_append_right _ (List.mem_singleton_self v)
  · intro x hx
    rcases List.mem_append.mp hx with h1 | h1
    · exact le_trans (min_le_left _ _) (hminle x h1)
    · rw [List.mem_singleton.mp h1]
      exact min_le_right _ _
  · rcases max_choice s.max_val v with hm | hm <;> rw [hm]
    · exact List.mem_append_left _ hmaxmem
    · exact List.mem_append_right _ (List.mem_singleton_self v)
  · intro x hx
    rcases List.mem_append.mp hx with h1 | h1
    · exact le_trans (hmaxle x h1) (le_max_left _ _)
    · rw [List.mem_singleton.mp h1]
      exact le_max_right _ _
  · rw [hwin]
  · rw [hwin]

theorem statsInv_single (v : ℚ) : StatsInv [v] (statsFold [v]) := by
  have h : statsFold [v] = updStats {} v := rfl
  have h2 : updStats {} v =
      { current_val := v, count := 1, values := [v], min_val := v,
        max_val := v, mean_val := v, std_dev_sq := 0 } := by
    unfold updStats
    dsimp only
    rw [if_pos rfl]
    rfl
  rw [h, h2]
  have hl : lastN 100 [v] = [v] := lastN_of_le (by norm_num)
  refine ⟨rfl, by rw [hl], List.mem_singleton_self v, ?_,
    List.mem_singleton_self v, ?_, ?_, ?_⟩
  · intro x hx; rw [List.mem_singleton.mp hx]
  · intro x hx; rw [List.mem_singleton.mp hx]
  · rw [hl]; simp
  · rw [hl]; simp

theorem statsFold_inv : ∀ (l : List ℚ), l ≠ [] → StatsInv l (statsFold l) := by
  intro l
  induction l using List.reverseRecOn with
  | nil => intro h; exact absurd rfl h
  | append_singleton l v ih =>
    intro _
    rcases eq_or_ne l [] with hl | hl
    · rw [hl]
      exact statsInv_single v
    · rw [statsFold_snoc]
      exact statsInv_upd hl (ih hl) v

theorem alookup_feedValues (key : String) :
    ∀ (vals : List ℚ) (m : List (String × Statistics)),
      (alookup (feedValues m key vals) key).getD {} =
        vals.foldl updStats ((alookup m key).getD {}) := by
  intro vals
  induction vals with
  | nil => intro m; rfl
  | cons v vs ih =>
    intro m
    rw [show feedValues m key (v :: vs) =
          feedValues (calculate_statistics m key v) key vs from rfl,
        ih, List.foldl_cons]
    unfold calculate_statistics
    rw [alookup_aset_self]
    rfl

/-! Lemmas about the health classifier and the per-reading step. -/

theorem alookup_ensureKey_self {α : Type} (m : List (String × α))
    (k : String) (d : α) :
    (alookup (ensureKey m k d) k).getD d = (alookup m k).getD d := by
  unfold ensureKey
  cases h : alookup m k with
  | none => simp [h, alookup_aset_self]
  | some x => simp [h]

theorem usm_status (dq : DataQuality) (key : String) (v : ℚ) (err : Bool)
    (now : String) :
    ((alookup (update_sensor_health dq key v err now).sensor_health key).getD
        {}).status =
      if err then HealthStatus.error
      else if pyStartsWith key "T" ∧ 100000 < v then HealthStatus.malfunction
      else if key = "P" ∧ v = -(997 / 10) then HealthStatus.offline
      else HealthStatus.good := by
  unfold update_sensor_health
  dsimp only
  rw [alookup_aset_self]
  cases err with
  | false =>
    try simp only [Bool.false_eq_true, if_false]
    split <;> split <;> simp_all
  | true =>
    try simp only [if_true]
    split <;> rfl

theorem usm_error_count (dq : DataQuality) (key : String) (v : ℚ) (err : Bool)
    (now : String) :
    (update_sensor_health dq key v err now).error_count =
      if err then dq.error_count + 1 else dq.error_count := by
  unfold update_sensor_health
  cases err <;> rfl

theorem usm_total_readings (dq : DataQuality) (key : String) (v : ℚ)
    (err : Bool) (now : String) :
    (update_sensor_health dq key v err now).total_readings =
      dq.total_readings := by
  unfold update_sensor_health
  cases err <;> rfl

theorem usm_parameter_errors (dq : DataQuality) (key : String) (v : ℚ)
    (err : Bool) (now : String) :
    (update_sensor_health dq key v err now).parameter_errors =
      dq.parameter_errors := by
  unfold update_sensor_health
  cases err <;> rfl

theorem statValues_calculate (stats : List (String × Statistics))
    (key : String) (v : ℚ) :
    statValues (calculate_statistics stats key v) key =
      windowAppend 100 (statValues stats key) v := by
  unfold statValues calculate_statistics
  rw [alookup_aset_self]
  unfold updStats
  dsimp only
  split
  · rfl
  · split <;> rfl

theorem statCount_calculate (stats : List (String × Statistics))
    (key : String) (v : ℚ) :
    ((alookup (calculate_statistics stats key v) key).getD {}).count =
      ((alookup stats key).getD {}).count + 1 := by
  unfold calculate_statistics
  rw [alookup_aset_self]
  unfold updStats
  dsimp only
  split
  · rfl
  · split <;> rfl

/-- The sentinel-error path of the per-reading step: for a numeric value
at or below -99.0, the status becomes Error, both the engine-wide and
the per-parameter error counters are bumped, the total counter is
bumped, and the statistics map is left untouched. -/
theorem processReading_error (st : EngineState) (key : String) (v : ℚ)
    (now : String) (h : v ≤ -99) :
    healthStatusOf (processReading st key (some v) now) key =
      HealthStatus.error ∧
    (processReading st key (some v) now).data_quality.error_count =
      st.data_quality.error_count + 1 ∧
    paramErrorCount (processReading st key (some v) now) key =
      paramErrorCount st key + 1 ∧
    paramTotalCount (processReading st key (some v) now) key =
      paramTotalCount st key + 1 ∧
    (processReading st key (some v) now).stats = st.stats := by
  have hd : decide (v ≤ -99) = true := decide_eq_true h
  unfold processReading
  dsimp only
  rw [hd]
  try simp only [if_true]
  refine ⟨?_, ?_, ?_, ?_, ?_⟩
  · unfold healthStatusOf
    try dsimp only
    rw [usm_status]
    rfl
  · try dsimp only
    rw [usm_error_count]
    rfl
  · unfold paramErrorCount
    try dsimp only
    rw [alookup_aset_self, usm_parameter_errors, alookup_aset_self]
    try dsimp only
    try rw [alookup_ensureKey_self]
    simp
  · unfold paramTotalCount
    try dsimp only
    rw [alookup_aset_self, usm_parameter_errors, alookup_aset_self]
    try dsimp only
    try rw [alookup_ensureKey_self]
    simp
  · first | rfl | trivial

/-- The accepted-value path of the per-reading step: for a numeric
value above -99.0 the classification runs with is_error false, the
engine-wide error counter is unchanged, the total counter is bumped,
the per-parameter error counter is unchanged, and the value is fed to
calculate_statistics. -/
theorem processReading_good (st : EngineState) (key : String) (v : ℚ)
    (now : String) (h : ¬v ≤ -99) :
    healthStatusOf (processReading st key (some v) now) key =
      (if pyStartsWith key "T" ∧ 100000 < v then HealthStatus.malfunction
       else if key = "P" ∧ v = -(997 / 10) then HealthStatus.offline
       else HealthStatus.good) ∧
    (processReading st key (some v) now).data_quality.error_count =
      st.data_quality.error_count ∧
    paramErrorCount (processReading st key (some v) now) key =
      paramErrorCount st key ∧
    paramTotalCount (processReading st key (some v) now) key =
      paramTotalCount st key + 1 ∧
    (processReading st key (some v) now).stats =
      calculate_statistics st.stats key v := by
  have hd : decide (v ≤ -99) = false := decide_eq_false h
  unfold processReading
  dsimp only
  rw [hd]
  try simp only [Bool.false_eq_true, if_false]
  refine ⟨?_, ?_, ?_, ?_, ?_⟩
  · unfold healthStatusOf
    try dsimp only
    rw [usm_status]
    rfl
  · try dsimp only
    rw [usm_error_count]
    rfl
  · unfold paramErrorCount
    try dsimp only
    rw [usm_parameter_errors, alookup_aset_self]
    try dsimp only
    try rw [alookup_ensureKey_self]
    simp
  · unfold paramTotalCount
    try dsimp only
    rw [usm_parameter_errors, alookup_aset_self]
    try dsimp only
    try rw [alookup_ensureKey_self]
    simp
  · first | rfl | trivial

/-! Lemmas about header emission and the record-file pipeline. -/

theorem headerCount_append_row (log : List CsvEntry) (r : List String) :
    headerCount (log ++ [CsvEntry.row r]) = headerCount log := by
  simp [headerCount, isHeaderEntry, List.filter_append]

theorem headerCount_append_header (log : List CsvEntry) (cols : List String) :
    headerCount (log ++ [CsvEntry.header cols]) = headerCount log + 1 := by
  simp [headerCount, isHeaderEntry, List.filter_append]

theorem pr_log (st : EngineState) (key : String) (c : Option ℚ)
    (now : String) : (processReading st key c now).csv_log = st.csv_log := by
  unfold processReading
  cases c with
  | none => rfl
  | some v =>
    dsimp only
    split <;> rfl

theorem pr_flag (st : EngineState) (key : String) (c : Option ℚ)
    (now : String) :
    (processReading st key c now).csv_headers_written =
      st.csv_headers_written := by
  unfold processReading
  cases c with
  | none => rfl
  | some v =>
    dsimp only
    split <;> rfl

theorem pr_cols (st : EngineState) (key : String) (c : Option ℚ)
    (now : String) :
    (processReading st key c now).csv_columns = st.csv_columns := by
  unfold processReading
  cases c with
  | none => rfl
  | some v =>
    dsimp only
    split <;> rfl

theorem fold_pr_log (now : String) :
    ∀ (ps : List (String × String)) (st : EngineState),
      (ps.foldl (fun s kv => processReading s kv.1 (pyFloatDec? kv.2) now)
        st).csv_log = st.csv_log := by
  intro ps
  induction ps with
  | nil => exact fun _ => rfl
  | cons kv rest ih =>
    intro st
    rw [List.foldl_cons, ih, pr_log]

theorem fold_pr_flag (now : String) :
    ∀ (ps : List (String × String)) (st : EngineState),
      (ps.foldl (fun s kv => processReading s kv.1 (pyFloatDec? kv.2) now)
        st).csv_headers_written = st.csv_headers_written := by
  intro ps
  induction ps with
  | nil => exact fun _ => rfl
  | cons kv rest ih =>
    intro st
    rw [List.foldl_cons, ih, pr_flag]

theorem ucc_produced (st : EngineState) (parsed : List (String × String))
    (w : Bool) :
    (update_csv_columns_f st parsed w).2 = (st.csv_headers_written || w) := by
  cases hw : st.csv_headers_written <;> cases w <;>
    simp [update_csv_columns_f, hw]

theorem ucc_flag (st : EngineState) (parsed : List (String × String))
    (w : Bool) :
    (update_csv_columns_f st parsed w).1.csv_headers_written =
      (st.csv_headers_written || w) := by
  cases hw : st.csv_headers_written <;> cases w <;>
    simp [update_csv_columns_f, hw]

theorem ucc_cols (st : EngineState) (parsed : List (String × String))
    (w : Bool) :
    (update_csv_columns_f st parsed w).1.csv_columns =
      observe_csv_columns st.csv_columns parsed := by
  cases hw : st.csv_headers_written <;> cases w <;>
    simp [update_csv_columns_f, hw]

theorem ucc_dq (st : EngineState) (parsed : List (String × String))
    (w : Bool) :
    (update_csv_columns_f st parsed w).1.data_quality = st.data_quality := by
  cases hw : st.csv_headers_written <;> cases w <;>
    simp [update_csv_columns_f, hw]

theorem ucc_stats (st : EngineState) (parsed : List (String × String))
    (w : Bool) :
    (update_csv_columns_f st parsed w).1.stats = st.stats := by
  cases hw : st.csv_headers_written <;> cases w <;>
    simp [update_csv_columns_f, hw]

theorem ucc_headerCount (st : EngineState) (parsed : List (String × String))
    (w : Bool) :
    headerCount (update_csv_columns_f st parsed w).1.csv_log =
      headerCount st.csv_log +
        (if st.csv_headers_written = false ∧ w = true then 1 else 0) := by
  cases hw : st.csv_headers_written <;> cases w <;>
    simp [update_csv_columns_f, hw, headerCount_append_header]

theorem ucc_log_no_write (st : EngineState) (parsed : List (String × String)) :
    (update_csv_columns_f st parsed false).1.csv_log = st.csv_log := by
  cases hw : st.csv_headers_written <;> simp [update_csv_columns_f, hw]

theorem wcr_produced (st : EngineState) (now : String)
    (parsed : List (String × String)) (w : Bool) :
    (write_csv_row_f st now parsed w).2 = w := by
  cases w <;> simp [write_csv_row_f]

theorem wcr_flag (st : EngineState) (now : String)
    (parsed : List (String × String)) (w : Bool) :
    (write_csv_row_f st now parsed w).1.csv_headers_written =
      st.csv_headers_written := by
  cases w <;> simp [write_csv_row_f]

theorem wcr_headerCount (st : EngineState) (now : String)
    (parsed : List (String × String)) (w : Bool) :
    headerCount (write_csv_row_f st now parsed w).1.csv_log =
      headerCount st.csv_log := by
  cases w <;> simp [write_csv_row_f, headerCount_append_row]

theorem wcr_dq (st : EngineState) (now : String)
    (parsed : List (String × String)) (w : Bool) :
    (write_csv_row_f st now parsed w).1.data_quality = st.data_quality := by
  cases w <;> simp [write_csv_row_f]

theorem wcr_log_no_write (st : EngineState) (now : String)
    (parsed : List (String × String)) :
    (write_csv_row_f st now parsed false).1.csv_log = st.csv_log := by
  simp [write_csv_row_f]

theorem rsd_blank (st : EngineState) (line now : String) (w : Bool)
    (hb : pyStrip line = "") : read_serial_data_f st line now w = (st, false) := by
  simp [read_serial_data_f, hb]

theorem rsd_flag (st : EngineState) (line now : String) (w : Bool) :
    (read_serial_data_f st line now w).1.csv_headers_written =
      if pyStrip line = "" then st.csv_headers_written
      else st.csv_headers_written || w := by
  by_cases hb : pyStrip line = ""
  · simp [read_serial_data_f, hb]
  · by_cases hw : st.csv_headers_written <;> cases w <;>
      simp [read_serial_data_f, hb, hw, ucc_produced, ucc_flag, wcr_produced,
        wcr_flag, fold_pr_flag]

theorem rsd_headerCount (st : EngineState) (line now : String) (w : Bool) :
    headerCount (read_serial_data_f st line now w).1.csv_log =
      headerCount st.csv_log +
        (if st.csv_headers_written = false ∧ w = true ∧ ¬pyStrip line = ""
         then 1 else 0) := by
  by_cases hb : pyStrip line = ""
  · simp [read_serial_data_f, hb]
  · by_cases hw : st.csv_headers_written <;> cases w <;>
      simp [read_serial_data_f, hb, hw, ucc_produced, ucc_headerCount,
        wcr_produced, wcr_headerCount, fold_pr_log]

theorem rsd_write_fail (st : EngineState) (line now : String) :
    (read_serial_data_f st line now false).2 = false ∧
    (read_serial_data_f st line now false).1.data_quality =
      st.data_quality ∧
    (read_serial_data_f st line now false).1.csv_log = st.csv_log ∧
    (read_serial_data_f st line now false).1.stats = st.stats := by
  by_cases hb : pyStrip line = ""
  · simp [read_serial_data_f, hb]
  · by_cases hw : st.csv_headers_written <;>
      simp [read_serial_data_f, hb, hw, ucc_produced, ucc_dq, ucc_stats,
        ucc_log_no_write, wcr_produced, wcr_dq, wcr_log_no_write,
        write_csv_row_f]

/-! Lemmas about schema growth. -/

theorem observe_extends (fs : List (String × String)) :
    ∀ cols, ∃ t, observe_csv_columns cols fs = cols ++ t := by
  induction fs with
  | nil => exact fun cols => ⟨[], by simp [observe_csv_columns]⟩
  | cons kv rest ih =>
    intro cols
    unfold observe_csv_columns at ih ⊢
    rw [List.foldl_cons]
    rcases ih (if kv.1 ∈ cols then cols else cols ++ [kv.1]) with ⟨t, ht⟩
    by_cases hk : kv.1 ∈ cols
    · rw [if_pos hk] at ht ⊢
      exact ⟨t, ht⟩
    · rw [if_neg hk] at ht ⊢
      exact ⟨[kv.1] ++ t, by rw [ht, List.append_assoc]⟩

theorem observe_nodup (fs : List (String × String)) :
    ∀ cols, cols.Nodup → (observe_csv_columns cols fs).Nodup := by
  induction fs with
  | nil => exact fun cols h => h
  | cons kv rest ih =>
    intro cols h
    unfold observe_csv_columns at ih ⊢
    rw [List.foldl_cons]
    by_cases hk : kv.1 ∈ cols
    · rw [if_pos hk]
      exact ih cols h
    · rw [if_neg hk]
      refine ih _ ?_
      simp [List.nodup_append, h, hk]

theorem observe_mem (fs : List (String × String)) :
    ∀ cols (k : String), k ∈ observe_csv_columns cols fs ↔
      k ∈ cols ∨ k ∈ fs.map Prod.fst := by
  induction fs with
  | nil => intro cols k; simp [observe_csv_columns]
  | cons kv rest ih =>
    intro cols k
    unfold observe_csv_columns at ih ⊢
    rw [List.foldl_cons]
    by_cases hk : kv.1 ∈ cols
    · rw [if_pos hk, ih]
      have hke : k = kv.1 → k ∈ cols := fun e => e ▸ hk
      simp only [List.map_cons, List.mem_cons]
      tauto
    · rw [if_neg hk, ih]
      simp only [List.map_cons, List.mem_cons, List.mem_append,
        List.mem_singleton]
      tauto

theorem foldl_observe_extends (fss : List (List (String × String))) :
    ∀ cols, ∃ t, fss.foldl observe_csv_columns cols = cols ++ t := by
  induction fss with
  | nil => exact fun cols => ⟨[], by simp⟩
  | cons fs rest ih =>
    intro cols
    rw [List.foldl_cons]
    rcases observe_extends fs cols with ⟨t1, ht1⟩
    rcases ih (observe_csv_columns cols fs) with ⟨t2, ht2⟩
    exact ⟨t1 ++ t2, by rw [ht2, ht1, List.append_assoc]⟩

theorem observeAll_timestamp_head (fss : List (List (String × String))) :
    (observeAll fss).head? = some "timestamp" := by
  unfold observeAll
  rcases foldl_observe_extends fss ["timestamp"] with ⟨t, ht⟩
  rw [ht]
  rfl

/-! Remaining helper lemmas for the claim theorems. -/

theorem foldl_segKV_filterMap :
    ∀ (segs : List (List Char)) (m : List (String × String)),
      segs.foldl (fun m seg =>
        match segKV seg with
        | some kv => aset m kv.1 kv.2
        | none => m) m =
      (segs.filterMap segKV).foldl (fun m kv => aset m kv.1 kv.2) m := by
  intro segs
  induction segs with
  | nil => intro m; rfl
  | cons seg rest ih =>
    intro m
    rw [List.foldl_cons, List.filterMap_cons]
    cases h : segKV seg with
    | none => simp only [h]; exact ih m
    | some kv => simp only [h, List.foldl_cons]; exact ih _

theorem segKV_of_no_space {seg : List Char} (h : ' ' ∉ seg) :
    segKV seg = none := by
  unfold segKV
  have h2 : ' ' ∉ stripChars seg := fun hm => h (mem_stripChars hm)
  rw [splitFirstSpace_none_iff.mpr h2]

theorem segKV_chars {seg : List Char} {kv : String × String}
    (h : segKV seg = some kv) :
    (∀ x ∈ kv.1.data, x ∈ seg) ∧ (∀ x ∈ kv.2.data, x ∈ seg) := by
  unfold segKV at h
  cases hs : splitFirstSpace (stripChars seg) with
  | none => rw [hs] at h; exact Option.noConfusion h
  | some p =>
    obtain ⟨p1, p2⟩ := p
    rw [hs] at h
    simp only [Option.some.injEq] at h
    obtain ⟨s1, s2⟩ := splitFirstSpace_subset hs
    constructor
    · intro x hx
      rw [← h] at hx
      exact mem_stripChars (s1 x (mem_stripChars hx))
    · intro x hx
      rw [← h] at hx
      exact mem_stripChars (s2 x (mem_stripChars hx))

theorem processAll_blank :
    ∀ (inputs : List (String × String)) (st : EngineState),
      (∀ p ∈ inputs, pyStrip p.1 = "") → processAll st inputs = st := by
  intro inputs
  induction inputs with
  | nil => exact fun st _ => rfl
  | cons p rest ih =>
    intro st h
    unfold processAll at ih ⊢
    rw [List.foldl_cons,
        show (read_serial_data st p.1 p.2).1 =
          (read_serial_data_f st p.1 p.2 true).1 from rfl,
        rsd_blank st p.1 p.2 true (h p (List.mem_cons_self p rest))]
    exact ih st (fun q hq => h q (List.mem_cons_of_mem p hq))

theorem processAll_header_stable :
    ∀ (inputs : List (String × String)) (st : EngineState),
      st.csv_headers_written = true →
      headerCount (processAll st inputs).csv_log = headerCount st.csv_log ∧
      (processAll st inputs).csv_headers_written = true := by
  intro inputs
  induction inputs with
  | nil => exact fun st h => ⟨rfl, h⟩
  | cons p rest ih =>
    intro st h
    unfold processAll at ih ⊢
    rw [List.foldl_cons]
    have hflag : (read_serial_data st p.1 p.2).1.csv_headers_written = true := by
      rw [show (read_serial_data st p.1 p.2).1 =
            (read_serial_data_f st p.1 p.2 true).1 from rfl, rsd_flag, h]
      split <;> rfl
    have hcnt : headerCount (read_serial_data st p.1 p.2).1.csv_log =
        headerCount st.csv_log := by
      rw [show (read_serial_data st p.1 p.2).1 =
            (read_serial_data_f st p.1 p.2 true).1 from rfl, rsd_headerCount, h]
      simp
    obtain ⟨g1, g2⟩ := ih _ hflag
    exact ⟨g1.trans hcnt, g2⟩

theorem processAll_append (st : EngineState)
    (xs ys : List (String × String)) :
    processAll st (xs ++ ys) = processAll (processAll st xs) ys := by
  unfold processAll
  rw [List.foldl_append]

/-! The claim theorems. -/

/-- C1: after each call to the statistics update operation
(calculate_statistics) with a numeric value, for every parameter: the
stored minimum and maximum are the running extrema over ALL values ever
fed for that parameter, the stored mean is the arithmetic mean of the
values currently in the bounded window of capacity 100, and the stored
standard deviation is the population standard deviation over that
window (its stored square std_dev_sq is the variance with divisor the
window length); feeding [1,2,3] to a fresh accumulator yields min=1,
max=3, mean=2.0, and std_dev = sqrt(2/3). -/
theorem C1_statistics_window :
    (∀ (key : String) (v : ℚ) (rest : List ℚ),
      StatsInv (v :: rest)
        ((alookup (feedValues [] key (v :: rest)) key).getD {})) ∧
    ((alookup (feedValues [] "S" [1, 2, 3]) "S").getD {}).min_val = 1 ∧
    ((alookup (feedValues [] "S" [1, 2, 3]) "S").getD {}).max_val = 3 ∧
    ((alookup (feedValues [] "S" [1, 2, 3]) "S").getD {}).mean_val = 2 ∧
    ((alookup (feedValues [] "S" [1, 2, 3]) "S").getD {}).std_dev_sq = 2 / 3 ∧
    Real.sqrt
        (((alookup (feedValues [] "S" [1, 2, 3]) "S").getD {}).std_dev_sq : ℝ) =
      Real.sqrt (2 / 3) := by
  have hex : (alookup (feedValues [] "S" [1, 2, 3]) "S").getD {} =
      statsFold [1, 2, 3] := by
    rw [alookup_feedValues]
    rfl
  have hval : statsFold [1, 2, 3] =
      { min_val := 1, max_val := 3, mean_val := 2, current_val := 3,
        std_dev_sq := 2 / 3, count := 3, values := [1, 2, 3] } := by
    norm_num [statsFold, updStats, windowAppend, min_def, max_def]
  refine ⟨?_, ?_, ?_, ?_, ?_, ?_⟩
  · intro key v rest
    rw [alookup_feedValues]
    exact statsFold_inv (v :: rest) (List.cons_ne_nil v rest)
  · rw [hex, hval]
  · rw [hex, hval]
  · rw [hex, hval]
  · rw [hex, hval]
  · rw [hex, hval]
    norm_num

/-- C2: a numeric reading at or below the -99.0 sentinel sets the
parameter's health status to Error, increments the engine-wide and the
per-parameter error counters (and the total counter), and is not fed to
the statistics accumulator; a numeric value above the sentinel for the
non-special parameter S yields status Good and the value is appended to
that parameter's statistics window. -/
theorem C2_sentinel_error_policy :
    (∀ (st : EngineState) (key : String) (v : ℚ) (now : String), v ≤ -99 →
      healthStatusOf (processReading st key (some v) now) key =
        HealthStatus.error ∧
      (processReading st key (some v) now).data_quality.error_count =
        st.data_quality.error_count + 1 ∧
      paramErrorCount (processReading st key (some v) now) key =
        paramErrorCount st key + 1 ∧
      paramTotalCount (processReading st key (some v) now) key =
        paramTotalCount st key + 1 ∧
      (processReading st key (some v) now).stats = st.stats) ∧
    (∀ (st : EngineState) (v : ℚ) (now : String), -99 < v →
      healthStatusOf (processReading st "S" (some v) now) "S" =
        HealthStatus.good ∧
      (processReading st "S" (some v) now).data_quality.error_count =
        st.data_quality.error_count ∧
      statValues (processReading st "S" (some v) now).stats "S" =
        windowAppend 100 (statValues st.stats "S") v) := by
  constructor
  · exact fun st key v now h => processReading_error st key v now h
  · intro st v now h
    obtain ⟨h1, h2, _, _, h5⟩ :=
      processReading_good st "S" v now (not_le.mpr h)
    have hT : pyStartsWith "S" "T" = false := by decide
    have hc1 : ¬(pyStartsWith "S" "T" ∧ 100000 < v) := by
      intro hp
      rw [hT] at hp
      exact Bool.noConfusion hp.1
    have hc2 : ¬(("S" : String) = "P" ∧ v = -(997 / 10)) := fun hp =>
      absurd hp.1 (by decide)
    refine ⟨?_, h2, ?_⟩
    · rw [h1, if_neg hc1, if_neg hc2]
    · rw [h5, statValues_calculate]

/-- Witness for C2 at the concrete sentinel -99 and the concrete good
reading S = 100. -/
theorem C2_sentinel_witness :
    healthStatusOf (processReading initState "D" (some (-99)) "t0") "D" =
      HealthStatus.error ∧
    healthStatusOf (processReading initState "S" (some 100) "t0") "S" =
      HealthStatus.good :=
  ⟨(C2_sentinel_error_policy.1 initState "D" (-99) "t0" (le_refl _)).1,
   (C2_sentinel_error_policy.2 initState 100 "t0" (by decide)).1⟩

/-- C3: a line containing a comma is split on ',', each segment is
split at its first space into a stripped (key, value) pair, segments
without a space are silently dropped, duplicate keys keep their first
position with the last value, and key order is order of appearance;
"S 3.2,D 180,T 21.5" parses to S↦3.2, D↦180, T↦21.5 in that order. -/
theorem C3_comma_mode_parse :
    parse_data_line "S 3.2,D 180,T 21.5" =
      [("S", "3.2"), ("D", "180"), ("T", "21.5")] ∧
    parse_data_line "S 1,X,S 2" = [("S", "2")] ∧
    (∀ line : String, ',' ∈ line.data →
      parse_data_line line =
        dictFold ((splitChar ',' (stripChars line.data)).filterMap segKV)) ∧
    (∀ seg : List Char, ' ' ∉ seg → segKV seg = none) ∧
    (∀ (ps : List (String × String)) (k : String),
      alookup (dictFold ps) k =
        match ps.reverse.find? (fun p => p.1 == k) with
        | some p => some p.2
        | none => none) ∧
    (∀ ps : List (String × String),
      (dictFold ps).map Prod.fst = dedupFirst (ps.map Prod.fst)) := by
  refine ⟨by decide, by decide, ?_, ?_, ?_, ?_⟩
  · intro line h
    unfold parse_data_line
    rw [if_pos h]
    exact foldl_segKV_filterMap _ []
  · exact fun seg h => segKV_of_no_space h
  · intro ps k
    have h := alookup_foldl_aset ps [] k
    unfold dictFold
    rw [h]
    cases List.find? (fun p => p.1 == k) ps.reverse <;> rfl
  · intro ps
    unfold dictFold dedupFirst
    rw [keys_foldl_aset, List.foldl_map]
    rfl

/-- Witness for C3 on a concrete comma line and a concrete spaceless
segment. -/
theorem C3_comma_mode_witness :
    parse_data_line "A 1,B 2" =
      dictFold ((splitChar ',' (stripChars ("A 1,B 2" : String).data)).filterMap
        segKV) ∧
    segKV ['X'] = none :=
  ⟨C3_comma_mode_parse.2.2.1 "A 1,B 2" (by decide),
   C3_comma_mode_parse.2.2.2.1 ['X'] (by decide)⟩

/-- C4: a line with no comma is split on runs of whitespace and the
tokens are paired positionally (token i with token i+1 for even i), a
trailing unpaired token is dropped, and "S 3.2 D 180 T 21.5" parses to
the same mapping as the comma-delimited form of the same data. -/
theorem C4_whitespace_mode_parse :
    parse_data_line "S 3.2 D 180 T 21.5" =
      [("S", "3.2"), ("D", "180"), ("T", "21.5")] ∧
    parse_data_line "S 3.2 D 180 T 21.5" =
      parse_data_line "S 3.2,D 180,T 21.5" ∧
    (∀ line : String, ',' ∉ line.data →
      parse_data_line line =
        dictFold (pairUp (splitWs (stripChars line.data)))) ∧
    (∀ (k v : String) (rest : List String),
      pairUp (k :: v :: rest) = (k, v) :: pairUp rest) ∧
    (∀ ts : List String, ts.length % 2 = 0 →
      ∀ t, pairUp (ts ++ [t]) = pairUp ts) ∧
    (∀ ts : List String, (pairUp ts).length = ts.length / 2) := by
  refine ⟨by decide, by decide, ?_, fun k v rest => rfl,
    fun ts h t => pairUp_even_snoc t ts h, pairUp_length⟩
  intro line h
  unfold parse_data_line dictFold
  rw [if_neg h]

/-- Witness for C4 on a concrete whitespace line and a concrete
odd-length token list. -/
theorem C4_whitespace_mode_witness :
    parse_data_line "A 1" =
      dictFold (pairUp (splitWs (stripChars ("A 1" : String).data))) ∧
    pairUp (["a", "b"] ++ ["c"]) = pairUp ["a", "b"] :=
  ⟨C4_whitespace_mode_parse.2.2.1 "A 1" (by decide),
   C4_whitespace_mode_parse.2.2.2.2.1 ["a", "b"] (by decide) "c"⟩

/-- C5: the CSV column schema starts with timestamp at position 0 and
grows monotonically: each new key is appended at the end in first-seen
order, a key already present is never re-added or moved, no column is
ever removed, and observing fields A then A,B yields column order
[timestamp, A, B]. -/
theorem C5_schema_growth :
    observeAll [[("A", "1")], [("A", "2"), ("B", "3")]] =
      ["timestamp", "A", "B"] ∧
    (∀ fss : List (List (String × String)),
      (observeAll fss).head? = some "timestamp") ∧
    (∀ (cols : List String) (fs : List (String × String)),
      ∃ t, observe_csv_columns cols fs = cols ++ t) ∧
    (∀ (cols : List String) (fs : List (String × String)),
      cols.Nodup → (observe_csv_columns cols fs).Nodup) ∧
    (∀ (cols : List String) (fs : List (String × String)) (k : String),
      k ∈ observe_csv_columns cols fs ↔ k ∈ cols ∨ k ∈ fs.map Prod.fst) ∧
    (∀ (st : EngineState) (parsed : List (String × String)) (w : Bool),
      (update_csv_columns_f st parsed w).1.csv_columns =
        observe_csv_columns st.csv_columns parsed) :=
  ⟨by decide, observeAll_timestamp_head,
   fun cols fs => observe_extends fs cols,
   fun cols fs h => observe_nodup fs cols h,
   fun cols fs k => observe_mem fs cols k, ucc_cols⟩

/-- Witness for C5 on a concrete duplicate-free column list. -/
theorem C5_schema_growth_witness :
    (["timestamp", "A"] : List String).Nodup ∧
    (observe_csv_columns ["timestamp", "A"] [("B", "2")]).Nodup :=
  ⟨by decide, C5_schema_growth.2.2.2.1 ["timestamp", "A"] [("B", "2")]
    (by decide)⟩

/-- C6 counterexample: the line "garbage" parses to an EMPTY field map,
yet processing it as the first received line writes the CSV header —
the header write is keyed to the first non-blank received line, not to
the first non-empty parse result as the claim states. -/
theorem C6_header_empty_fields_counterexample :
    parse_data_line "garbage" = [] ∧
    (read_serial_data initState "garbage" "t0").1.csv_headers_written =
      true ∧
    headerCount (read_serial_data initState "garbage" "t0").1.csv_log = 1 :=
  ⟨by decide, by decide, by decide⟩

/-- C6 amended: the CSV header row is written exactly once per run, at
the first received line that is non-empty after stripping — even when
that line's parsed field map is empty — and never a second time: blank
lines before it leave the file headerless, processing it writes the
single header, and any further lines never add another. -/
theorem C6_header_once_amended :
    ∀ (pre : List (String × String)) (line ts : String)
      (post : List (String × String)),
      (∀ p ∈ pre, pyStrip p.1 = "") → ¬pyStrip line = "" →
      headerCount (processAll initState pre).csv_log = 0 ∧
      (processAll initState pre).csv_headers_written = false ∧
      (processAll initState (pre ++ [(line, ts)])).csv_headers_written =
        true ∧
      headerCount (processAll initState (pre ++ [(line, ts)])).csv_log = 1 ∧
      headerCount
        (processAll initState (pre ++ [(line, ts)] ++ post)).csv_log = 1 := by
  intro pre line ts post hpre hline
  have hA : processAll initState pre = initState := processAll_blank pre _ hpre
  have hstep1 :
      (processAll initState (pre ++ [(line, ts)])).csv_headers_written =
        true := by
    rw [processAll_append, hA]
    unfold processAll
    rw [List.foldl_cons, List.foldl_nil,
        show (read_serial_data initState line ts).1 =
          (read_serial_data_f initState line ts true).1 from rfl, rsd_flag,
        if_neg hline]
    rfl
  have hstep2 :
      headerCount (processAll initState (pre ++ [(line, ts)])).csv_log = 1 := by
    rw [processAll_append, hA]
    unfold processAll
    rw [List.foldl_cons, List.foldl_nil,
        show (read_serial_data initState line ts).1 =
          (read_serial_data_f initState line ts true).1 from rfl,
        rsd_headerCount]
    simp [hline, initState, headerCount]
  refine ⟨by rw [hA]; rfl, by rw [hA]; rfl, hstep1, hstep2, ?_⟩
  rw [processAll_append]
  obtain ⟨g1, _⟩ := processAll_header_stable post _ hstep1
  rw [g1, hstep2]

/-- Witness for C6 amended: one blank line, then a line that parses to
nothing, then a further line. -/
theorem C6_header_once_amended_witness :
    (processAll initState ([("", "t0")] ++ [("x", "t1")])).csv_headers_written =
      true ∧
    headerCount
      (processAll initState
        (([("", "t0")] ++ [("x", "t1")]) ++ [("S 1", "t2")])).csv_log = 1 :=
  ⟨(C6_header_once_amended [("", "t0")] "x" "t1" [("S 1", "t2")] (by decide)
      (by decide)).2.2.1,
   (C6_header_once_amended [("", "t0")] "x" "t1" [("S 1", "t2")] (by decide)
      (by decide)).2.2.2.2⟩

/-- C7 (bug evidence): a P reading of exactly -99.70 satisfies the
sentinel test -99.70 <= -99.0, so the classifier marks it Error and the
value is NOT fed to the statistics accumulator; the dedicated
P == -99.70 Offline branch of update_sensor_health (datalogger_pi.py
lines 396-397) is unreachable — no numeric reading can ever be
classified Offline. -/
theorem C7_pressure_offline_unreachable :
    healthStatusOf (processReading initState "P" (some (-(997 / 10))) "t0")
      "P" = HealthStatus.error ∧
    (processReading initState "P" (some (-(997 / 10))) "t0").stats =
      initState.stats ∧
    (∀ (st : EngineState) (key : String) (v : ℚ) (now : String),
      healthStatusOf (processReading st key (some v) now) key ≠
        HealthStatus.offline) := by
  have hle : (-(997 / 10) : ℚ) ≤ -99 := by norm_num
  obtain ⟨h1, _, _, _, h5⟩ :=
    processReading_error initState "P" (-(997 / 10)) "t0" hle
  refine ⟨h1, h5, ?_⟩
  intro st key v now
  by_cases h : v ≤ -99
  · rw [(processReading_error st key v now h).1]
    exact fun e => HealthStatus.noConfusion e
  · rw [(processReading_good st key v now h).1]
    by_cases hT : pyStartsWith key "T" ∧ 100000 < v
    · rw [if_pos hT]
      exact fun e => HealthStatus.noConfusion e
    · rw [if_neg hT]
      by_cases hP : key = "P" ∧ v = -(997 / 10)
      · exact absurd (hP.2 ▸ hle) h
      · rw [if_neg hP]
        exact fun e => HealthStatus.noConfusion e

/-- C8 counterexample: a failed record-file write on the first line is
absorbed (read_serial_data returns None), and the engine keeps
processing: the second line is fully processed — counted, written and
statistically accumulated — so a write failure is not fatal to the
run. -/
theorem C8_write_failure_counterexample :
    (read_serial_data_f initState "S 1" "t0" false).2 = false ∧
    (runLines initState
      [("S 1", "t0", false), ("S 2", "t1", true)]).data_quality.total_readings
      = 1 ∧
    statValues (runLines initState
      [("S 1", "t0", false), ("S 2", "t1", true)]).stats "S" = [2] ∧
    ((runLines initState
      [("S 1", "t0", false), ("S 2", "t1", true)]).csv_log.filter
        isRowEntry).length = 1 :=
  ⟨by decide, by decide, by decide, by decide⟩

/-- C8 amended: a failed write to the record file is absorbed by the
blanket except of read_serial_data (datalogger_pi.py lines 371-373):
the affected line produces no DataPoint, no row, no counter or
statistics update, and the engine continues processing subsequent lines
unchanged; the run is not terminated. -/
theorem C8_write_failure_amended :
    ∀ (st : EngineState) (line now : String),
      (read_serial_data_f st line now false).2 = false ∧
      (read_serial_data_f st line now false).1.data_quality =
        st.data_quality ∧
      (read_serial_data_f st line now false).1.csv_log = st.csv_log ∧
      (read_serial_data_f st line now false).1.stats = st.stats ∧
      (∀ rest, runLines st ((line, now, false) :: rest) =
        runLines (read_serial_data_f st line now false).1 rest) := by
  intro st line now
  obtain ⟨h1, h2, h3, h4⟩ := rsd_write_fail st line now
  exact ⟨h1, h2, h3, h4, fun rest => rfl⟩

/-- C9 (bug evidence): with the session connected and running, a
readline failure (device disappearance) is consumed inside
read_serial_data — the iteration returns with the phase still
Connected, not Searching; the run does keep the process alive and the
output files opened at startup (the parts of the claim that do hold). -/
theorem C9_read_failure_stays_connected :
    (innerIter connectedInit LinkEvent.readRaise "t0").phase =
      SessPhase.connected ∧
    (innerIter connectedInit LinkEvent.readRaise "t0").phase ≠
      SessPhase.searching ∧
    (innerIter connectedInit LinkEvent.readRaise "t0").running = true ∧
    (innerIter connectedInit LinkEvent.readRaise "t0").files_opened = 1 ∧
    (read_serial_data_raised connectedInit.engine).2 = false :=
  ⟨by decide, by decide, by decide, by decide, by decide⟩

/-- C10: no key or value produced by the parser contains a comma (comma
mode splits on ',', whitespace mode only runs on comma-free lines), and
a record row rendered from comma-free values consists of exactly one
comma-separated field per column known at the time of writing. -/
theorem C10_fields_comma_free :
    (∀ (line : String) (kv : String × String), kv ∈ parse_data_line line →
      ',' ∉ kv.1.data ∧ ',' ∉ kv.2.data) ∧
    (∀ (cols : List String) (now : String)
      (parsed : List (String × String)),
      ',' ∉ now.data → (∀ kv ∈ parsed, ',' ∉ (kv.2 : String).data) →
      (row_values cols now parsed).length = cols.length ∧
      (cols ≠ [] →
        splitChar ',' (joinComma (row_values cols now parsed)) =
          (row_values cols now parsed).map String.data)) := by
  constructor
  · intro line kv h
    unfold parse_data_line at h
    by_cases hc : ',' ∈ line.data
    · rw [if_pos hc, foldl_segKV_filterMap] at h
      rcases mem_foldl_aset _ _ h with h2 | h2
      · simp at h2
      · rcases List.mem_filterMap.mp h2 with ⟨seg, hseg, hkv⟩
        obtain ⟨c1, c2⟩ := segKV_chars hkv
        have hns : ',' ∉ seg := mem_splitChar hseg
        exact ⟨fun hx => hns (c1 ',' hx), fun hx => hns (c2 ',' hx)⟩
    · rw [if_neg hc] at h
      rcases mem_foldl_aset _ _ h with h2 | h2
      · simp at h2
      · obtain ⟨k, v⟩ := kv
        obtain ⟨hk, hv⟩ := pairUp_mem _ k v h2
        constructor
        · intro hx
          rcases mem_splitWsAux hk ',' hx with h3 | h3
          · exact hc (mem_stripChars h3)
          · simp at h3
        · intro hx
          rcases mem_splitWsAux hv ',' hx with h3 | h3
          · exact hc (mem_stripChars h3)
          · simp at h3
  · intro cols now parsed hnow hvals
    have hlen : (row_values cols now parsed).length = cols.length := by
      simp [row_values]
    refine ⟨hlen, ?_⟩
    intro hne
    apply splitChar_joinComma
    · intro he
      apply hne
      have := congrArg List.length he
      rw [hlen] at this
      exact List.length_eq_zero.mp this
    · intro s hs
      unfold row_values at hs
      rcases List.mem_map.mp hs with ⟨c, _, hceq⟩
      by_cases hts : c = "timestamp"
      · rw [← hceq, if_pos hts]
        exact hnow
      · rw [← hceq, if_neg hts]
        cases hl : alookup parsed c with
        | none => simp
        | some v =>
          simp only [hl, Option.getD_some]
          exact hvals (c, v) (alookup_mem hl)

/-- Witness for C10 on a concrete parsed pair and a concrete row. -/
theorem C10_fields_comma_free_witness :
    (',' ∉ ("S" : String).data ∧ ',' ∉ ("3.2" : String).data) ∧
    (row_values ["timestamp", "S"] "t0" [("S", "1")]).length = 2 :=
  ⟨C10_fields_comma_free.1 "S 3.2" ("S", "3.2") (by decide),
   ((C10_fields_comma_free.2 ["timestamp", "S"] "t0" [("S", "1")]
      (by decide) (by decide)).1).trans (by decide)⟩

end Trisonica
